import Mathlib

/-!
# Verification of the PNA event-delivery core

Shallow embedding of `src/socketioN/asyncio_namespace.py` and
`src/socketioN/kafka_manager.py`, together with the parts of their external
collaborators (the `pickle` codec and the `PubSubManager` base class) that the
specified properties depend on, the latter modelled from the specification.
-/

/-- Python payload values carried by events and broker messages: the structured
data the spec requires the codec to round-trip (unit value, booleans, integers,
strings, binary blobs, nested sequences). -/
inductive PyValue where
  | none : PyValue
  | bool (b : Bool) : PyValue
  | int (n : Int) : PyValue
  | str (s : String) : PyValue
  | bytes (bs : List Nat) : PyValue
  | list (xs : List PyValue) : PyValue

mutual

/-- Modelled from the spec: `pickle.dumps` — "Serialized with a format that must
losslessly round-trip arbitrary application payload values (the reference uses a
generic object serializer)". `pickle` is the Python standard library, not part of
`src/`; this serializer is a faithful model of the contract the spec states:
a tag byte per node, length-prefixed strings/blobs/sequences. -/
def dumpsAux : PyValue → List Nat
  | PyValue.none => [0]
  | PyValue.bool b => [1, if b then 1 else 0]
  | PyValue.int n => [2, if n < 0 then 1 else 0, n.natAbs]
  | PyValue.str s => 3 :: s.length :: s.data.map Char.toNat
  | PyValue.list xs => 4 :: xs.length :: dumpsList xs
  | PyValue.bytes bs => 5 :: bs.length :: bs

/-- Serialize a sequence of payload values back to back. -/
def dumpsList : List PyValue → List Nat
  | [] => []
  | x :: xs => dumpsAux x ++ dumpsList xs

end

mutual

/-- Modelled from the spec: decoder of the `pickle` codec. Consumes one
serialized value from the front of the byte stream, returning it together with
the unconsumed remainder; `Option.none` on malformed input. Fuel bounds the
recursion; any fuel at least the node count of the encoded value suffices. -/
def loadsAux : Nat → List Nat → Option (PyValue × List Nat)
  | 0, _ => Option.none
  | _ + 1, 0 :: rest => Option.some (PyValue.none, rest)
  | _ + 1, 1 :: b :: rest => Option.some (PyValue.bool (b == 1), rest)
  | _ + 1, 2 :: s :: m :: rest =>
      Option.some (PyValue.int (if s == 1 then -(m : Int) else (m : Int)), rest)
  | _ + 1, 3 :: n :: rest =>
      if n ≤ rest.length then
        Option.some (PyValue.str ⟨(rest.take n).map Char.ofNat⟩, rest.drop n)
      else Option.none
  | fuel + 1, 4 :: n :: rest =>
      match loadsListAux fuel n rest with
      | Option.some (xs, r) => Option.some (PyValue.list xs, r)
      | Option.none => Option.none
  | _ + 1, 5 :: n :: rest =>
      if n ≤ rest.length then Option.some (PyValue.bytes (rest.take n), rest.drop n)
      else Option.none
  | _ + 1, _ => Option.none

/-- Decode `n` consecutive serialized values from the front of the stream. -/
def loadsListAux : Nat → Nat → List Nat → Option (List PyValue × List Nat)
  | _, 0, bs => Option.some ([], bs)
  | 0, _ + 1, _ => Option.none
  | fuel + 1, n + 1, bs =>
      match loadsAux fuel bs with
      | Option.some (x, r) =>
          match loadsListAux fuel n r with
          | Option.some (xs, r2) => Option.some (x :: xs, r2)
          | Option.none => Option.none
      | Option.none => Option.none

end

/-- Modelled from the spec: `pickle.dumps` applied to a whole payload. -/
def dumps (v : PyValue) : List Nat := dumpsAux v

/-- Modelled from the spec: `pickle.loads` — decode a whole byte value; raises
(here: returns an error) on malformed or incompletely-consumed input. -/
def loads (bs : List Nat) : Except String PyValue :=
  match loadsAux (2 * bs.length + 1) bs with
  | Option.some (v, []) => Except.ok v
  | Option.some (_, _ :: _) => Except.error "UnpicklingError: trailing data"
  | Option.none => Except.error "UnpicklingError: invalid load key"

mutual

/-- Node count of a payload value: a lower bound usable as decoder fuel. -/
def pySize : PyValue → Nat
  | PyValue.none => 1
  | PyValue.bool _ => 1
  | PyValue.int _ => 1
  | PyValue.str _ => 1
  | PyValue.bytes _ => 1
  | PyValue.list xs => 1 + pyListSize xs

/-- Node count of a sequence of payload values. -/
def pyListSize : List PyValue → Nat
  | [] => 0
  | x :: xs => 1 + pySize x + pyListSize xs

end

/-- A character is recovered from its code point. -/
theorem char_ofNat_toNat (c : Char) : Char.ofNat c.toNat = c := by
  unfold Char.ofNat
  rw [dif_pos (show c.toNat.isValidChar from c.valid)]
  unfold Char.ofNatAux
  apply Char.ext
  apply UInt32.ext
  simp [Char.toNat, UInt32.toNat]

/-- Decoding inverts encoding, for any fuel at least the node count; proved for
values and for value sequences simultaneously by induction on the fuel. -/
theorem loadsAux_dumpsAux (fuel : Nat) :
    (∀ (v : PyValue) (rest : List Nat), pySize v ≤ fuel →
      loadsAux fuel (dumpsAux v ++ rest) = Option.some (v, rest)) ∧
    (∀ (xs : List PyValue) (rest : List Nat), pyListSize xs ≤ fuel →
      loadsListAux fuel xs.length (dumpsList xs ++ rest) = Option.some (xs, rest)) := by
  induction fuel with
  | zero =>
    constructor
    · intro v rest h
      cases v <;> simp [pySize] at h
    · intro xs rest h
      cases xs with
      | nil => simp [loadsListAux, dumpsList]
      | cons x xs => simp [pyListSize] at h
  | succ n ih =>
    constructor
    · intro v rest h
      cases v with
      | none => simp [dumpsAux, loadsAux]
      | bool b => cases b <;> simp [dumpsAux, loadsAux]
      | int m =>
        by_cases hm : m < 0
        · simp [dumpsAux, loadsAux, hm, Int.ofNat_natAbs_of_nonpos (le_of_lt hm)]
        · simp [dumpsAux, loadsAux, hm, Int.natAbs_of_nonneg (not_lt.mp hm)]
      | str s =>
        have hlen : (s.data.map Char.toNat).length = s.length := by
          simp only [List.length_map]
          rfl
        simp only [dumpsAux, List.cons_append, loadsAux]
        rw [if_pos (by rw [List.length_append, hlen]; omega)]
        rw [List.take_left' hlen, List.drop_left' hlen]
        simp only [List.map_map]
        have hcomp : Char.ofNat ∘ Char.toNat = id := funext char_ofNat_toNat
        rw [hcomp, List.map_id]
      | bytes bs =>
        simp only [dumpsAux, List.cons_append, loadsAux]
        rw [if_pos (by rw [List.length_append]; omega)]
        rw [List.take_left, List.drop_left]
      | list xs =>
        simp only [pySize] at h
        simp only [dumpsAux, List.cons_append, loadsAux]
        rw [ih.2 xs rest (by omega)]
    · intro xs rest h
      cases xs with
      | nil => simp [dumpsList, loadsListAux]
      | cons x xs =>
        simp only [pyListSize] at h
        have h1 := ih.1 x (dumpsList xs ++ rest) (by omega)
        have h2 := ih.2 xs rest (by omega)
        simp [dumpsList, loadsListAux, List.append_assoc, h1, h2]

/-- The node count of a value is dominated by its encoded length, so the fuel
`loads` picks from the byte stream is always sufficient. -/
theorem pySize_le_dumpsAux (bound : Nat) :
    (∀ v : PyValue, pySize v ≤ bound → pySize v + 1 ≤ 2 * (dumpsAux v).length) ∧
    (∀ xs : List PyValue, pyListSize xs ≤ bound →
      pyListSize xs ≤ 2 * (dumpsList xs).length) := by
  induction bound with
  | zero =>
    constructor
    · intro v h
      cases v <;> simp [pySize] at h
    · intro xs h
      cases xs with
      | nil => simp [dumpsList, pyListSize]
      | cons x xs => simp [pyListSize] at h
  | succ n ih =>
    constructor
    · intro v h
      cases v with
      | none => simp [dumpsAux, pySize]
      | bool b => simp [dumpsAux, pySize]
      | int m => simp [dumpsAux, pySize]
      | str s => simp [dumpsAux, pySize]
      | bytes bs => simp [dumpsAux, pySize]
      | list xs =>
        simp only [pySize] at h
        have h2 := ih.2 xs (by omega)
        simp only [pySize, dumpsAux, List.length_cons]
        omega
    · intro xs h
      cases xs with
      | nil => simp [dumpsList, pyListSize]
      | cons x xs =>
        simp only [pyListSize] at h
        have h1 := ih.1 x (by omega)
        have h2 := ih.2 xs (by omega)
        simp only [pyListSize, dumpsList, List.length_append]
        omega

/-- The codec round-trips: deserializing a serialized payload yields the
payload back (the spec's lossless round-trip requirement for `pickle`). -/
theorem loads_dumps (v : PyValue) : loads (dumps v) = Except.ok v := by
  have hsz := (pySize_le_dumpsAux (pySize v)).1 v (le_refl _)
  have h := (loadsAux_dumpsAux (2 * (dumpsAux v).length + 1)).1 v [] (by omega)
  rw [List.append_nil] at h
  simp [loads, dumps, h]

/-- A Python exception as seen by `trigger_event`: either
`asyncio.CancelledError` (raised into a coroutine cancelled mid-await) or any
other exception, identified by its description. -/
inductive Exn where
  | cancelledError : Exn
  | other (msg : String) : Exn
deriving DecidableEq, Repr

/-- An event handler attribute (`on_<event>` method) of a namespace instance:
its kind — `iscoroutinefunction` or plain — and its behaviour, mapping the
positional arguments to either a returned payload or a raised exception (for a
coroutine, `Exn.cancelledError` is the outcome of being cancelled mid-await). -/
structure Handler where
  isCoroutine : Bool
  run : List PyValue → Except Exn PyValue

/-- A server-side class-based namespace instance (`AsyncNamespace`): its bound
Socket.IO namespace string and its attribute table restricted to event
handlers — `handlers name` models `getattr(self, name)` when `hasattr` holds. -/
structure AsyncNamespace where
  bound_namespace : String
  handlers : String → Option Handler

/-- A client-side class-based namespace instance (`AsyncClientNamespace`). -/
structure AsyncClientNamespace where
  bound_namespace : String
  handlers : String → Option Handler

/-- `AsyncNamespace.trigger_event` (asyncio_namespace.py lines 23-43): derive
`handler_name = 'on_' + event`; if the attribute is absent fall off the
function (returning `None`); otherwise invoke the handler once with the given
arguments, awaiting it when it is a coroutine and converting a
`CancelledError` raised during the await into a `None` result. The second
component records the handler invocations performed. -/
def AsyncNamespace.trigger_event (self : AsyncNamespace) (event : String)
    (args : List PyValue) : Except Exn PyValue × List (String × List PyValue) :=
  let handler_name := "on_" ++ event
  match self.handlers handler_name with
  | Option.none => (Except.ok PyValue.none, [])
  | Option.some handler =>
    if handler.isCoroutine then
      match handler.run args with
      | Except.error Exn.cancelledError =>
          (Except.ok PyValue.none, [(handler_name, args)])
      | r => (r, [(handler_name, args)])
    else
      (handler.run args, [(handler_name, args)])

/-- `AsyncClientNamespace.trigger_event` (asyncio_namespace.py lines 149-169):
identical dispatch logic on the client-side class. -/
def AsyncClientNamespace.trigger_event (self : AsyncClientNamespace)
    (event : String) (args : List PyValue) :
    Except Exn PyValue × List (String × List PyValue) :=
  let handler_name := "on_" ++ event
  match self.handlers handler_name with
  | Option.none => (Except.ok PyValue.none, [])
  | Option.some handler =>
    if handler.isCoroutine then
      match handler.run args with
      | Except.error Exn.cancelledError =>
          (Except.ok PyValue.none, [(handler_name, args)])
      | r => (r, [(handler_name, args)])
    else
      (handler.run args, [(handler_name, args)])

/-- Python's `a or b` on an optional string `a`: `None` and the empty string
are falsy, so they fall back to `b`; any non-empty string is returned itself.
Models the `s_namespace or self.namespace` expression of every façade method. -/
def pyOrStr : Option String → String → String
  | Option.none, b => b
  | Option.some s, b => if s = "" then b else s

/-- A call forwarded to the owning server (`self.server.<method>(...)`), with
the exact arguments the façade passes through. -/
inductive SrvCall where
  | emit (event : String) (data : PyValue) (room : Option String)
      (skip_sid : Option String) (ns : String) (callback : Option Nat) : SrvCall
  | send (data : PyValue) (room : Option String) (skip_sid : Option String)
      (ns : String) (callback : Option Nat) : SrvCall
  | close_room (room : String) (ns : String) : SrvCall
  | get_session (sid : String) (ns : String) : SrvCall
  | save_session (sid : String) (session : PyValue) (ns : String) : SrvCall
  | session (sid : String) (ns : String) : SrvCall
  | disconnect (sid : String) (ns : String) : SrvCall

/-- A call forwarded to the owning client (`self.client.<method>(...)`). -/
inductive ClientCall where
  | emit (event : String) (data : PyValue) (ns : String)
      (callback : Option Nat) : ClientCall
  | send (data : PyValue) (ns : String) (callback : Option Nat) : ClientCall
  | disconnect : ClientCall

/-- `AsyncNamespace.emit` (lines 45-58): forward to `self.server.emit` with
`namespace=s_namespace or self.namespace` and every other argument unchanged. -/
def AsyncNamespace.emit (self : AsyncNamespace) (event : String)
    (data : PyValue) (room skip_sid : Option String)
    (s_namespace : Option String) (callback : Option Nat) : SrvCall :=
  SrvCall.emit event data room skip_sid
    (pyOrStr s_namespace self.bound_namespace) callback

/-- `AsyncNamespace.send` (lines 60-72). -/
def AsyncNamespace.send (self : AsyncNamespace) (data : PyValue)
    (room skip_sid : Option String) (s_namespace : Option String)
    (callback : Option Nat) : SrvCall :=
  SrvCall.send data room skip_sid
    (pyOrStr s_namespace self.bound_namespace) callback

/-- `AsyncNamespace.close_room` (lines 74-84). -/
def AsyncNamespace.close_room (self : AsyncNamespace) (room : String)
    (s_namespace : Option String) : SrvCall :=
  SrvCall.close_room room (pyOrStr s_namespace self.bound_namespace)

/-- `AsyncNamespace.get_session` (lines 86-96). -/
def AsyncNamespace.get_session (self : AsyncNamespace) (sid : String)
    (s_namespace : Option String) : SrvCall :=
  SrvCall.get_session sid (pyOrStr s_namespace self.bound_namespace)

/-- `AsyncNamespace.save_session` (lines 98-108). -/
def AsyncNamespace.save_session (self : AsyncNamespace) (sid : String)
    (session : PyValue) (s_namespace : Option String) : SrvCall :=
  SrvCall.save_session sid session (pyOrStr s_namespace self.bound_namespace)

/-- `AsyncNamespace.session` (lines 110-117). -/
def AsyncNamespace.session (self : AsyncNamespace) (sid : String)
    (s_namespace : Option String) : SrvCall :=
  SrvCall.session sid (pyOrStr s_namespace self.bound_namespace)

/-- `AsyncNamespace.disconnect` (lines 119-129). -/
def AsyncNamespace.disconnect (self : AsyncNamespace) (sid : String)
    (s_namespace : Option String) : SrvCall :=
  SrvCall.disconnect sid (pyOrStr s_namespace self.bound_namespace)

/-- `AsyncClientNamespace.emit` (lines 171-182). -/
def AsyncClientNamespace.emit (self : AsyncClientNamespace) (event : String)
    (data : PyValue) (s_namespace : Option String)
    (callback : Option Nat) : ClientCall :=
  ClientCall.emit event data (pyOrStr s_namespace self.bound_namespace) callback

/-- `AsyncClientNamespace.send` (lines 184-195). -/
def AsyncClientNamespace.send (self : AsyncClientNamespace) (data : PyValue)
    (s_namespace : Option String) (callback : Option Nat) : ClientCall :=
  ClientCall.send data (pyOrStr s_namespace self.bound_namespace) callback

/-- `AsyncClientNamespace.disconnect` (lines 197-206): takes no namespace
argument at all and forwards `self.client.disconnect()` with no arguments. -/
def AsyncClientNamespace.disconnect (_self : AsyncClientNamespace) : ClientCall :=
  ClientCall.disconnect

/-- The namespace argument carried by a forwarded client call, if any. -/
def ClientCall.sentNamespace : ClientCall → Option String
  | ClientCall.emit _ _ ns _ => Option.some ns
  | ClientCall.send _ ns _ => Option.some ns
  | ClientCall.disconnect => Option.none

/-- A side effect performed by `KafkaManager.__init__`, in order. -/
inductive InitEffect where
  | baseInit (channel : String) (write_only : Bool) : InitEffect
  | createProducer (bootstrap_servers : String) : InitEffect
  | createConsumer (topic : String) (bootstrap_servers : String) : InitEffect
deriving DecidableEq, Repr

/-- The state a successfully constructed `KafkaManager` holds. -/
structure KafkaManagerState where
  channel : String
  write_only : Bool
  kafka_url : String
deriving DecidableEq, Repr

/-- `KafkaManager.__init__` (kafka_manager.py lines 37-50): raise `RuntimeError`
when the `kafka` package could not be imported, before performing anything
else; otherwise initialize the base `PubSubManager`, derive the broker address
`url[8:] if url != 'kafka://' else 'localhost:9092'`, and create the producer
and the consumer. The first component is the constructed state or the raised
error; the second lists the side effects performed, in order. -/
def KafkaManager.init (kafkaPresent : Bool) (url channel : String)
    (write_only : Bool) : Except String KafkaManagerState × List InitEffect :=
  if kafkaPresent = false then
    (Except.error ("kafka-python package is not installed " ++
      "(Run \"pip install kafka-python\" in your virtualenv)."), [])
  else
    let kafka_url := if url ≠ "kafka://" then url.drop 8 else "localhost:9092"
    (Except.ok ⟨channel, write_only, kafka_url⟩,
     [InitEffect.baseInit channel write_only,
      InitEffect.createProducer kafka_url,
      InitEffect.createConsumer channel kafka_url])

/-- An effect performed on the Kafka producer by `_publish`. -/
inductive ProducerEffect where
  | send (topic : String) (value : List Nat) : ProducerEffect
  | flush : ProducerEffect
deriving DecidableEq, Repr

/-- `KafkaManager._publish` (lines 52-54): send the pickled data on the
configured channel, then flush the producer. -/
def KafkaManager.publish (self : KafkaManagerState) (data : PyValue) :
    List ProducerEffect :=
  [ProducerEffect.send self.channel (dumps data), ProducerEffect.flush]

/-- A message obtained from the Kafka consumer: its topic and its byte value. -/
structure KMessage where
  topic : String
  value : List Nat
deriving DecidableEq, Repr

/-- `KafkaManager._kafka_listen` (lines 56-58): yield every message the
consumer produces, modelled on a finite prefix of the consumed stream. -/
def KafkaManager.kafka_listen (consumed : List KMessage) : List KMessage :=
  consumed

/-- `KafkaManager._listen` (lines 60-63), with Python generator semantics made
explicit: walk `_kafka_listen()`, and on each message whose topic equals the
configured channel yield `pickle.loads(message.value)`. `loads` raising
terminates the generator with that exception: the first component is the list
of values yielded before the exception (all of them, when the second component
is `Option.none`), the second the exception `pickle.loads` raised, if any. -/
def KafkaManager.listenLoop (channel : String) :
    List KMessage → List PyValue × Option String
  | [] => ([], Option.none)
  | message :: rest =>
    if message.topic = channel then
      match loads message.value with
      | Except.ok v =>
          let tail := KafkaManager.listenLoop channel rest
          (v :: tail.1, tail.2)
      | Except.error e => ([], Option.some e)
    else
      KafkaManager.listenLoop channel rest

/-- `KafkaManager._listen` itself: the loop applied to `_kafka_listen()`. -/
def KafkaManager.listen (channel : String) (consumed : List KMessage) :
    List PyValue × Option String :=
  KafkaManager.listenLoop channel (KafkaManager.kafka_listen consumed)

/-- Modelled from the spec: the consumer-loop start decision lives in the
`PubSubManager` base class, which is not under `src/`. Per the spec, "when
true, the manager only publishes ...; when false it both publishes and runs
the consumer loop", and a write-only manager "never invokes any local
apply-side-effect from received broadcasts (because it never starts the
consumer loop)". The local apply-side-effects invoked from received
broadcasts are therefore none at all for a write-only manager, and one per
value the consumer loop (`_listen`) yields otherwise. -/
def PubSubManager.receivedApplies (self : KafkaManagerState)
    (consumed : List KMessage) : List PyValue :=
  if self.write_only then [] else (KafkaManager.listen self.channel consumed).1

/-- C1: for every event name such that the namespace instance has no attribute
named `"on_" + event`, `trigger_event` — on both `AsyncNamespace` and
`AsyncClientNamespace` — returns `None` and invokes no handler and performs no
other side effect. -/
theorem C1_unmatched_event_is_silent_noop
    (srv : AsyncNamespace) (cli : AsyncClientNamespace) (event : String)
    (args argsC : List PyValue)
    (hs : srv.handlers ("on_" ++ event) = Option.none)
    (hc : cli.handlers ("on_" ++ event) = Option.none) :
    srv.trigger_event event args = (Except.ok PyValue.none, []) ∧
    cli.trigger_event event argsC = (Except.ok PyValue.none, []) := by
  constructor
  · simp [AsyncNamespace.trigger_event, hs]
  · simp [AsyncClientNamespace.trigger_event, hc]

/-- Witness for C1 at a concrete namespace with no handlers. -/
theorem C1_witness :
    (AsyncNamespace.mk "/" (fun _ => Option.none)).handlers ("on_" ++ "message") =
      Option.none ∧
    (AsyncNamespace.mk "/" (fun _ => Option.none)).trigger_event "message"
      [PyValue.str "hi"] = (Except.ok PyValue.none, []) ∧
    (AsyncClientNamespace.mk "/" (fun _ => Option.none)).trigger_event "message"
      [] = (Except.ok PyValue.none, []) :=
  ⟨rfl, C1_unmatched_event_is_silent_noop ⟨"/", fun _ => Option.none⟩
    ⟨"/", fun _ => Option.none⟩ "message" [PyValue.str "hi"] [] rfl rfl⟩

/-- C2: for every event with a matching handler, an exception the handler
raises propagates unchanged to the caller of `trigger_event`, with exactly one
exception: a coroutine handler whose outcome is `CancelledError` (cancelled
mid-execution) makes `trigger_event` return `None` instead. -/
theorem C2_handler_fault_propagates_except_cancellation
    (srv : AsyncNamespace) (cli : AsyncClientNamespace) (event : String)
    (args argsC : List PyValue) (h hC : Handler) (e eC : Exn)
    (hs : srv.handlers ("on_" ++ event) = Option.some h)
    (hr : h.run args = Except.error e)
    (hc : cli.handlers ("on_" ++ event) = Option.some hC)
    (hrC : hC.run argsC = Except.error eC) :
    (srv.trigger_event event args).1 =
      (if h.isCoroutine = true ∧ e = Exn.cancelledError
       then Except.ok PyValue.none else Except.error e) ∧
    (cli.trigger_event event argsC).1 =
      (if hC.isCoroutine = true ∧ eC = Exn.cancelledError
       then Except.ok PyValue.none else Except.error eC) := by
  constructor
  · by_cases hco : h.isCoroutine <;> cases e <;>
      simp [AsyncNamespace.trigger_event, hs, hr, hco]
  · by_cases hco : hC.isCoroutine <;> cases eC <;>
      simp [AsyncClientNamespace.trigger_event, hc, hrC, hco]

/-- Witness for C2: a cancelled coroutine handler yields `None`; a plain
handler's exception propagates. -/
theorem C2_witness :
    ((AsyncNamespace.mk "/"
        (fun _ => Option.some ⟨true, fun _ => Except.error Exn.cancelledError⟩)
      ).trigger_event "boom" []).1 = Except.ok PyValue.none ∧
    ((AsyncClientNamespace.mk "/"
        (fun _ => Option.some ⟨false, fun _ => Except.error (Exn.other "boom")⟩)
      ).trigger_event "boom" []).1 = Except.error (Exn.other "boom") := by
  have h := C2_handler_fault_propagates_except_cancellation
    ⟨"/", fun _ => Option.some ⟨true, fun _ => Except.error Exn.cancelledError⟩⟩
    ⟨"/", fun _ => Option.some ⟨false, fun _ => Except.error (Exn.other "boom")⟩⟩
    "boom" [] [] ⟨true, fun _ => Except.error Exn.cancelledError⟩
    ⟨false, fun _ => Except.error (Exn.other "boom")⟩
    Exn.cancelledError (Exn.other "boom") rfl rfl rfl rfl
  simpa using h

/-- C3: for every event with a matching handler that completes normally,
`trigger_event` invokes that handler exactly once with exactly the given
positional arguments and returns its (awaited) result verbatim, on both the
server-side and the client-side class. -/
theorem C3_handler_result_returned_verbatim
    (srv : AsyncNamespace) (cli : AsyncClientNamespace) (event : String)
    (args argsC : List PyValue) (h hC : Handler) (v vC : PyValue)
    (hs : srv.handlers ("on_" ++ event) = Option.some h)
    (hr : h.run args = Except.ok v)
    (hc : cli.handlers ("on_" ++ event) = Option.some hC)
    (hrC : hC.run argsC = Except.ok vC) :
    srv.trigger_event event args = (Except.ok v, [("on_" ++ event, args)]) ∧
    cli.trigger_event event argsC = (Except.ok vC, [("on_" ++ event, argsC)]) := by
  constructor
  · by_cases hco : h.isCoroutine <;>
      simp [AsyncNamespace.trigger_event, hs, hr, hco]
  · by_cases hco : hC.isCoroutine <;>
      simp [AsyncClientNamespace.trigger_event, hc, hrC, hco]

/-- Witness for C3, mirroring the spec scenario: a coroutine `on_message`
returning `"ack"` makes `trigger_event("message", ["hi"])` yield `"ack"`. -/
theorem C3_witness :
    (AsyncNamespace.mk "/"
        (fun _ => Option.some ⟨true, fun _ => Except.ok (PyValue.str "ack")⟩)
      ).trigger_event "message" [PyValue.str "hi"] =
      (Except.ok (PyValue.str "ack"),
       [("on_" ++ "message", [PyValue.str "hi"])]) ∧
    (AsyncClientNamespace.mk "/"
        (fun _ => Option.some ⟨false, fun _ => Except.ok PyValue.none⟩)
      ).trigger_event "message" [] =
      (Except.ok PyValue.none, [("on_" ++ "message", [])]) :=
  C3_handler_result_returned_verbatim
    ⟨"/", fun _ => Option.some ⟨true, fun _ => Except.ok (PyValue.str "ack")⟩⟩
    ⟨"/", fun _ => Option.some ⟨false, fun _ => Except.ok PyValue.none⟩⟩
    "message" [PyValue.str "hi"] []
    ⟨true, fun _ => Except.ok (PyValue.str "ack")⟩
    ⟨false, fun _ => Except.ok PyValue.none⟩
    (PyValue.str "ack") PyValue.none rfl rfl rfl rfl

/-- C4 counterexample: `AsyncClientNamespace.disconnect` does not forward the
instance's bound namespace (it forwards `self.client.disconnect()` with no
namespace argument at all), refuting the claim for that façade operation. -/
theorem C4_counterexample :
    (AsyncClientNamespace.disconnect
        ⟨"/chat", fun _ => Option.none⟩).sentNamespace ≠
      Option.some "/chat" := by
  simp [AsyncClientNamespace.disconnect, ClientCall.sentNamespace]

/-- C4 amended: every façade operation on `AsyncNamespace` (`emit`, `send`,
`close_room`, `get_session`, `save_session`, `session`, `disconnect`) and the
`emit` and `send` operations of `AsyncClientNamespace` forward to the owning
server/client with all other arguments unchanged and with namespace
`s_namespace or self.namespace`: the explicit override when the caller gives a
non-empty one, the bound namespace when the caller gives none (the empty
string, being falsy, also falls back to the bound namespace);
`AsyncClientNamespace.disconnect` forwards to the client's `disconnect` with
no namespace argument. -/
theorem C4_amended_facade_forwarding
    (srv : AsyncNamespace) (cli : AsyncClientNamespace) (event sid room1 : String)
    (data sess : PyValue) (room skip_sid s_ns : Option String)
    (cb : Option Nat) :
    (srv.emit event data room skip_sid s_ns cb =
      SrvCall.emit event data room skip_sid
        (pyOrStr s_ns srv.bound_namespace) cb) ∧
    (srv.send data room skip_sid s_ns cb =
      SrvCall.send data room skip_sid (pyOrStr s_ns srv.bound_namespace) cb) ∧
    (srv.close_room room1 s_ns =
      SrvCall.close_room room1 (pyOrStr s_ns srv.bound_namespace)) ∧
    (srv.get_session sid s_ns =
      SrvCall.get_session sid (pyOrStr s_ns srv.bound_namespace)) ∧
    (srv.save_session sid sess s_ns =
      SrvCall.save_session sid sess (pyOrStr s_ns srv.bound_namespace)) ∧
    (srv.session sid s_ns =
      SrvCall.session sid (pyOrStr s_ns srv.bound_namespace)) ∧
    (srv.disconnect sid s_ns =
      SrvCall.disconnect sid (pyOrStr s_ns srv.bound_namespace)) ∧
    (cli.emit event data s_ns cb =
      ClientCall.emit event data (pyOrStr s_ns cli.bound_namespace) cb) ∧
    (cli.send data s_ns cb =
      ClientCall.send data (pyOrStr s_ns cli.bound_namespace) cb) ∧
    (cli.disconnect = ClientCall.disconnect) ∧
    (pyOrStr Option.none srv.bound_namespace = srv.bound_namespace) ∧
    (pyOrStr (Option.some "") srv.bound_namespace = srv.bound_namespace) ∧
    (∀ s : String, s ≠ "" →
      pyOrStr (Option.some s) srv.bound_namespace = s) := by
  refine ⟨rfl, rfl, rfl, rfl, rfl, rfl, rfl, rfl, rfl, rfl, rfl, ?_, ?_⟩
  · simp [pyOrStr]
  · intro s hs
    simp [pyOrStr, hs]

/-- Witness for C4's amended claim at a concrete namespace and override. -/
theorem C4_witness :
    (AsyncNamespace.emit ⟨"/", fun _ => Option.none⟩ "ev" PyValue.none
        Option.none Option.none (Option.some "/admin") Option.none =
      SrvCall.emit "ev" PyValue.none Option.none Option.none
        (pyOrStr (Option.some "/admin") "/") Option.none) ∧
    pyOrStr (Option.some "/admin") "/" = "/admin" := by
  have h := C4_amended_facade_forwarding ⟨"/", fun _ => Option.none⟩
    ⟨"/", fun _ => Option.none⟩ "ev" "sid1" "room1" PyValue.none PyValue.none
    Option.none Option.none (Option.some "/admin") Option.none
  exact ⟨h.1, h.2.2.2.2.2.2.2.2.2.2.2.2 "/admin" (by decide)⟩

/-- C5: constructing a `KafkaManager` when the kafka client library is absent
raises before any other side effect — before initializing the base manager and
before creating any producer or consumer; when the library is present, the
constructor performs no such raise. -/
theorem C5_missing_dependency_fails_fast (url channel : String)
    (write_only : Bool) :
    KafkaManager.init false url channel write_only =
      (Except.error ("kafka-python package is not installed " ++
        "(Run \"pip install kafka-python\" in your virtualenv)."), []) ∧
    (KafkaManager.init true url channel write_only).1.isOk = true := by
  constructor
  · rfl
  · simp [KafkaManager.init, Except.isOk, Except.toBool]

/-- Every value yielded by the listen loop is the deserialization of some
consumed message whose topic is the configured channel. -/
theorem listenLoop_mem_exists (channel : String) :
    ∀ (msgs : List KMessage) (x : PyValue),
      x ∈ (KafkaManager.listenLoop channel msgs).1 →
      ∃ m, m ∈ msgs ∧ m.topic = channel ∧ loads m.value = Except.ok x := by
  intro msgs
  induction msgs with
  | nil =>
    intro x hx
    simp [KafkaManager.listenLoop] at hx
  | cons m rest ih =>
    intro x hx
    by_cases ht : m.topic = channel
    · cases hload : loads m.value with
      | ok v =>
        simp only [KafkaManager.listenLoop, if_pos ht, hload] at hx
        rcases List.mem_cons.mp hx with h1 | h2
        · exact ⟨m, List.mem_cons_self m rest, ht, by rw [← h1] at hload; exact hload⟩
        · obtain ⟨m2, hm2, ht2, hl2⟩ := ih x h2
          exact ⟨m2, List.mem_cons_of_mem m hm2, ht2, hl2⟩
      | error e =>
        simp [KafkaManager.listenLoop, if_pos ht, hload] at hx
    · simp only [KafkaManager.listenLoop, if_neg ht] at hx
      obtain ⟨m2, hm2, ht2, hl2⟩ := ih x hx
      exact ⟨m2, List.mem_cons_of_mem m hm2, ht2, hl2⟩

/-- C6: every element yielded by `_listen` comes from a consumed broker
message whose topic equals the configured channel, and is the deserialization
of that message's byte value. -/
theorem C6_listen_yields_only_channel_decodes (channel : String)
    (consumed : List KMessage) (x : PyValue)
    (hx : x ∈ (KafkaManager.listen channel consumed).1) :
    ∃ m, m ∈ consumed ∧ m.topic = channel ∧ loads m.value = Except.ok x :=
  listenLoop_mem_exists channel consumed x hx

/-- Witness for C6 on a one-message stream. -/
theorem C6_witness :
    PyValue.int 5 ∈ (KafkaManager.listen "socketioN"
      [⟨"socketioN", dumps (PyValue.int 5)⟩]).1 ∧
    ∃ m, m ∈ [(⟨"socketioN", dumps (PyValue.int 5)⟩ : KMessage)] ∧
      m.topic = "socketioN" ∧ loads m.value = Except.ok (PyValue.int 5) := by
  have hx : PyValue.int 5 ∈ (KafkaManager.listen "socketioN"
      [⟨"socketioN", dumps (PyValue.int 5)⟩]).1 := by
    simp [KafkaManager.listen, KafkaManager.kafka_listen,
      KafkaManager.listenLoop, loads_dumps]
  exact ⟨hx, C6_listen_yields_only_channel_decodes "socketioN" _ _ hx⟩

/-- C7: any broker message produced by `_publish`, consumed by a peer
listening on the same channel with the identical codec, makes `_listen` yield
exactly the original payload (the codec round-trips through the broker). -/
theorem C7_publish_listen_roundtrip (self : KafkaManagerState) (data : PyValue)
    (m : KMessage)
    (hm : ProducerEffect.send m.topic m.value ∈ KafkaManager.publish self data) :
    KafkaManager.listen m.topic [m] = ([data], Option.none) := by
  simp only [KafkaManager.publish, List.mem_cons, List.mem_singleton] at hm
  rcases hm with hm | hm
  · rw [ProducerEffect.send.injEq] at hm
    obtain ⟨h1, h2⟩ := hm
    simp [KafkaManager.listen, KafkaManager.kafka_listen,
      KafkaManager.listenLoop, h2, loads_dumps]
  · exact absurd hm (by simp)

/-- Witness for C7 at a concrete publish of `"hello"`. -/
theorem C7_witness :
    (ProducerEffect.send
        (KMessage.mk "socketioN" (dumps (PyValue.str "hello"))).topic
        (KMessage.mk "socketioN" (dumps (PyValue.str "hello"))).value ∈
      KafkaManager.publish ⟨"socketioN", false, "localhost:9092"⟩
        (PyValue.str "hello")) ∧
    KafkaManager.listen "socketioN"
        [⟨"socketioN", dumps (PyValue.str "hello")⟩] =
      ([PyValue.str "hello"], Option.none) := by
  have hm : ProducerEffect.send
      (KMessage.mk "socketioN" (dumps (PyValue.str "hello"))).topic
      (KMessage.mk "socketioN" (dumps (PyValue.str "hello"))).value ∈
      KafkaManager.publish ⟨"socketioN", false, "localhost:9092"⟩
        (PyValue.str "hello") := by
    simp [KafkaManager.publish]
  exact ⟨hm, C7_publish_listen_roundtrip _ _ _ hm⟩

/-- A same-channel message whose byte value fails to decode makes the listen
loop raise at that message: the values yielded are exactly those of the clean
prefix before it, and nothing after it is ever processed. -/
theorem listenLoop_decode_fault (channel : String) (bad : KMessage)
    (rest : List KMessage) (err : String) (ht : bad.topic = channel)
    (hb : loads bad.value = Except.error err) :
    ∀ pre : List KMessage,
      (KafkaManager.listenLoop channel pre).2 = Option.none →
      KafkaManager.listenLoop channel (pre ++ bad :: rest) =
        ((KafkaManager.listenLoop channel pre).1, Option.some err) := by
  intro pre
  induction pre with
  | nil =>
    intro _
    simp [KafkaManager.listenLoop, if_pos ht, hb]
  | cons m pre ih =>
    intro hpre
    by_cases htm : m.topic = channel
    · cases hload : loads m.value with
      | ok v =>
        have hpre2 : (KafkaManager.listenLoop channel pre).2 = Option.none := by
          simpa [KafkaManager.listenLoop, htm, hload] using hpre
        simp [KafkaManager.listenLoop, htm, hload, ih hpre2]
      | error e =>
        exfalso
        simp [KafkaManager.listenLoop, htm, hload] at hpre
    · have hpre2 : (KafkaManager.listenLoop channel pre).2 = Option.none := by
        simpa [KafkaManager.listenLoop, htm] using hpre
      simp [KafkaManager.listenLoop, htm, ih hpre2]

/-- The empty byte value is malformed: deserializing it raises. -/
theorem loads_nil : loads [] = Except.error "UnpicklingError: invalid load key" := rfl

/-- C8 counterexample: a malformed message (empty byte value) on the channel
between two well-formed ones stops the second well-formed message from ever
being yielded, and terminates the loop with the decode error instead of
logging and skipping — refuting the claim on concrete input. -/
theorem C8_counterexample :
    (KafkaManager.listen "c" [⟨"c", dumps (PyValue.int 1)⟩, ⟨"c", []⟩,
        ⟨"c", dumps (PyValue.int 2)⟩]).1 = [PyValue.int 1] ∧
    (KafkaManager.listen "c" [⟨"c", dumps (PyValue.int 1)⟩, ⟨"c", []⟩,
        ⟨"c", dumps (PyValue.int 2)⟩]).2 ≠ Option.none := by
  constructor <;>
    simp [KafkaManager.listen, KafkaManager.kafka_listen,
      KafkaManager.listenLoop, loads_dumps, loads_nil]

/-- C8 amended: a consumed same-channel message whose byte value fails to
decode raises the decode error out of `_listen`, terminating the generator:
the messages before it (when they decode cleanly) are yielded, the error
surfaces, and no subsequently received message — well-formed or not — is ever
yielded. The code neither logs nor skips the malformed message. -/
theorem C8_amended_decode_fault_terminates (channel : String)
    (pre : List KMessage) (bad : KMessage) (rest : List KMessage) (err : String)
    (hpre : (KafkaManager.listen channel pre).2 = Option.none)
    (ht : bad.topic = channel) (hb : loads bad.value = Except.error err) :
    KafkaManager.listen channel (pre ++ bad :: rest) =
      ((KafkaManager.listen channel pre).1, Option.some err) :=
  listenLoop_decode_fault channel bad rest err ht hb pre hpre

/-- Witness for C8's amended claim: a malformed message after one good one and
before another good one. -/
theorem C8_witness :
    (KafkaManager.listen "c" [⟨"c", dumps (PyValue.int 1)⟩]).2 = Option.none ∧
    KafkaManager.listen "c" ([⟨"c", dumps (PyValue.int 1)⟩] ++ ⟨"c", []⟩ ::
        [⟨"c", dumps (PyValue.int 2)⟩]) =
      ((KafkaManager.listen "c" [⟨"c", dumps (PyValue.int 1)⟩]).1,
        Option.some "UnpicklingError: invalid load key") := by
  have hpre : (KafkaManager.listen "c" [⟨"c", dumps (PyValue.int 1)⟩]).2 =
      Option.none := by
    simp [KafkaManager.listen, KafkaManager.kafka_listen,
      KafkaManager.listenLoop, loads_dumps]
  exact ⟨hpre, C8_amended_decode_fault_terminates "c" _ ⟨"c", []⟩ _ _ hpre rfl rfl⟩

/-- C9: a manager constructed with `write_only = True` never invokes a local
apply-side-effect from received broadcasts — the consumer loop is never
started — while `_publish` still performs its normal send-and-flush. -/
theorem C9_write_only_publishes_never_applies (url channel : String)
    (consumed : List KMessage) (data : PyValue) (st : KafkaManagerState)
    (effs : List InitEffect)
    (h : KafkaManager.init true url channel true = (Except.ok st, effs)) :
    PubSubManager.receivedApplies st consumed = [] ∧
    KafkaManager.publish st data =
      [ProducerEffect.send channel (dumps data), ProducerEffect.flush] := by
  simp only [KafkaManager.init, Bool.true_eq_false, if_false, Prod.mk.injEq,
    Except.ok.injEq] at h
  obtain ⟨h1, -⟩ := h
  subst h1
  constructor
  · simp [PubSubManager.receivedApplies]
  · simp [KafkaManager.publish]

/-- Witness for C9 at a concretely constructed write-only manager. -/
theorem C9_witness :
    KafkaManager.init true "kafka://" "socketioN" true =
      (Except.ok ⟨"socketioN", true, "localhost:9092"⟩,
       [InitEffect.baseInit "socketioN" true,
        InitEffect.createProducer "localhost:9092",
        InitEffect.createConsumer "socketioN" "localhost:9092"]) ∧
    PubSubManager.receivedApplies ⟨"socketioN", true, "localhost:9092"⟩
      [⟨"socketioN", dumps PyValue.none⟩] = [] ∧
    KafkaManager.publish ⟨"socketioN", true, "localhost:9092"⟩ (PyValue.int 7) =
      [ProducerEffect.send "socketioN" (dumps (PyValue.int 7)),
       ProducerEffect.flush] := by
  have h : KafkaManager.init true "kafka://" "socketioN" true =
      (Except.ok ⟨"socketioN", true, "localhost:9092"⟩,
       [InitEffect.baseInit "socketioN" true,
        InitEffect.createProducer "localhost:9092",
        InitEffect.createConsumer "socketioN" "localhost:9092"]) := rfl
  exact ⟨h, C9_write_only_publishes_never_applies "kafka://" "socketioN"
    [⟨"socketioN", dumps PyValue.none⟩] (PyValue.int 7) _ _ h⟩

/-- C10: the broker address a constructed `KafkaManager` stores is
`'localhost:9092'` when the url argument is exactly `'kafka://'`, and the url
with its first 8 characters removed for every other url string. -/
theorem C10_broker_address_derivation (url channel : String)
    (write_only : Bool) (st : KafkaManagerState) (effs : List InitEffect)
    (h : KafkaManager.init true url channel write_only = (Except.ok st, effs)) :
    st.kafka_url =
      if url = "kafka://" then "localhost:9092" else url.drop 8 := by
  simp only [KafkaManager.init, Bool.true_eq_false, if_false, Prod.mk.injEq,
    Except.ok.injEq] at h
  obtain ⟨h1, -⟩ := h
  subst h1
  by_cases hu : url = "kafka://" <;> simp [hu]

/-- Witness for C10 at a non-kafka scheme, exercising the prefix removal. -/
theorem C10_witness :
    KafkaManager.init true "redis://hhh" "c" false =
      (Except.ok ⟨"c", false, "hhh"⟩,
       [InitEffect.baseInit "c" false, InitEffect.createProducer "hhh",
        InitEffect.createConsumer "c" "hhh"]) ∧
    (KafkaManagerState.mk "c" false "hhh").kafka_url =
      (if "redis://hhh" = "kafka://" then "localhost:9092"
       else "redis://hhh".drop 8) := by
  have h : KafkaManager.init true "redis://hhh" "c" false =
      (Except.ok ⟨"c", false, "hhh"⟩,
       [InitEffect.baseInit "c" false, InitEffect.createProducer "hhh",
        InitEffect.createConsumer "c" "hhh"]) := rfl
  exact ⟨h, C10_broker_address_derivation "redis://hhh" "c" false _ _ h⟩
